import Mathlib

/-!
# Verification of the Clione marketplace core

Shallow embedding of the repository's core:

* the Move module `sui_drop::market` (listing lifecycle and the two purchase
  entry points with their payment split), embedded over `Nat` with Move's
  checked `u64` arithmetic made explicit (`u64` operations abort the
  transaction on overflow/underflow instead of wrapping);
* the byte-level framing and base64 key serialization of
  `src/lib/crypto-utils.ts`;
* the purchase-variant selection of `handlePurchase` in
  `src/app/generate/page.tsx`.

Bytes are `Nat`s with a `< 256` side condition where it matters; addresses
are `Nat`s; Move `vector<u8>` is `List Nat`.
-/

namespace Market

/-- Move aborts of the `market` module and of the Move VM / framework that
its entry functions can hit.  The module's own codes are
`E_INSUFFICIENT_PAYMENT = 0`, `E_LISTING_NOT_ACTIVE = 1`,
`E_INVALID_AFFILIATE_PERCENTAGE = 2`, `E_CANNOT_SELF_REFER = 3`; the
seller-only entry points abort with the literal code `1` on an unauthorized
sender; `eArithmetic` models the Move VM abort on `u64` overflow/underflow;
`eBalanceNotEnough` models the `sui::balance` abort inside `coin::split`
when the split amount exceeds the coin's value. -/
inductive MarketAbort where
  | eInsufficientPayment
  | eListingNotActive
  | eInvalidAffiliatePercentage
  | eCannotSelfRefer
  | eUnauthorized
  | eArithmetic
  | eBalanceNotEnough
  deriving DecidableEq, Repr

/-- `MAX_AFFILIATE_PERCENTAGE` of `sui_drop::market`: 1000 basis points. -/
def MAX_AFFILIATE_PERCENTAGE : Nat := 1000

/-- `BASIS_POINTS` of `sui_drop::market`: 10000. -/
def BASIS_POINTS : Nat := 10000

/-- Number of values of a Move `u64`. -/
def U64_BOUND : Nat := 2 ^ 64

/-- Move `u64` multiplication: aborts the transaction on overflow. -/
def u64_mul (a b : Nat) : Except MarketAbort Nat :=
  if a * b < U64_BOUND then .ok (a * b) else .error .eArithmetic

/-- Move `u64` subtraction: aborts the transaction on underflow. -/
def u64_sub (a b : Nat) : Except MarketAbort Nat :=
  if b ≤ a then .ok (a - b) else .error .eArithmetic

/-- `sui::coin::split`: aborts when the requested amount exceeds the coin's
value, otherwise yields the split-off amount and the remainder. -/
def coin_split (value amount : Nat) : Except MarketAbort (Nat × Nat) :=
  if amount ≤ value then .ok (amount, value - amount) else .error .eBalanceNotEnough

/-- The `Listing` shared object of `sui_drop::market`. -/
structure Listing where
  id : Nat
  seller : Nat
  price : Nat
  blob_id : List Nat
  name : List Nat
  description : List Nat
  is_active : Bool
  affiliate_percentage : Nat
  deriving DecidableEq, Repr

/-- A `transfer::public_transfer` of a coin: recipient and the coin's value. -/
structure Transfer where
  recipient : Nat
  amount : Nat
  deriving DecidableEq, Repr

/-- The events the module emits: `PurchaseEvent` carries
`listing_id, buyer, seller, price`; `AffiliatePurchaseEvent` additionally
carries `referrer, affiliate_fee, seller_amount`. -/
inductive MarketEvent where
  | purchaseEvent (listing_id buyer seller price : Nat)
  | affiliatePurchaseEvent
      (listing_id buyer seller referrer price affiliate_fee seller_amount : Nat)
  deriving DecidableEq, Repr

/-- `create_listing_with_affiliate`: asserts
`affiliate_percentage <= MAX_AFFILIATE_PERCENTAGE`, then shares a fresh
`Listing` with the sender as seller and `is_active = true`.  The fresh
object id is passed in as `fresh_id` (Move's `object::new`). -/
def create_listing_with_affiliate (price : Nat) (blob_id name description : List Nat)
    (affiliate_percentage : Nat) (sender fresh_id : Nat) :
    Except MarketAbort Listing :=
  if affiliate_percentage ≤ MAX_AFFILIATE_PERCENTAGE then
    .ok { id := fresh_id, seller := sender, price := price, blob_id := blob_id,
          name := name, description := description, is_active := true,
          affiliate_percentage := affiliate_percentage }
  else .error .eInvalidAffiliatePercentage

/-- `create_listing`: delegates to `create_listing_with_affiliate` with
commission 0. -/
def create_listing (price : Nat) (blob_id name description : List Nat)
    (sender fresh_id : Nat) : Except MarketAbort Listing :=
  create_listing_with_affiliate price blob_id name description 0 sender fresh_id

/-- `purchase`: asserts the listing active, asserts
`payment_value >= listing.price`, transfers the whole payment to the seller
and emits a `PurchaseEvent`.  The result lists the transfers performed and
the emitted event. -/
def purchase (listing : Listing) (payment_value sender : Nat) :
    Except MarketAbort (List Transfer × MarketEvent) :=
  if ¬ listing.is_active then .error .eListingNotActive
  else if payment_value < listing.price then .error .eInsufficientPayment
  else
    .ok ([⟨listing.seller, payment_value⟩],
         .purchaseEvent listing.id sender listing.seller listing.price)

/-- `purchase_with_referral`: asserts active, asserts
`payment_value >= price`, asserts `referrer != buyer` and
`referrer != seller`; computes
`affiliate_fee = price * affiliate_percentage / BASIS_POINTS` (Move `u64`
arithmetic, so the multiplication aborts on overflow) when the stored
percentage is positive, else 0; computes
`seller_amount = price - affiliate_fee`; if the fee is positive, splits the
payment coin and transfers the fee to the referrer; transfers the remaining
coin to the seller; emits an `AffiliatePurchaseEvent`. -/
def purchase_with_referral (listing : Listing) (payment_value sender referrer : Nat) :
    Except MarketAbort (List Transfer × MarketEvent) :=
  if ¬ listing.is_active then .error .eListingNotActive
  else if payment_value < listing.price then .error .eInsufficientPayment
  else if referrer = sender then .error .eCannotSelfRefer
  else if referrer = listing.seller then .error .eCannotSelfRefer
  else
    match (if 0 < listing.affiliate_percentage then
             Except.map (· / BASIS_POINTS) (u64_mul listing.price listing.affiliate_percentage)
           else .ok 0) with
    | .error e => .error e
    | .ok affiliate_fee =>
      match u64_sub listing.price affiliate_fee with
      | .error e => .error e
      | .ok seller_amount =>
        if 0 < affiliate_fee then
          match coin_split payment_value affiliate_fee with
          | .error e => .error e
          | .ok (fee_coin, rest) =>
            .ok ([⟨referrer, fee_coin⟩, ⟨listing.seller, rest⟩],
                 .affiliatePurchaseEvent listing.id sender listing.seller referrer
                   listing.price affiliate_fee seller_amount)
        else
          .ok ([⟨listing.seller, payment_value⟩],
               .affiliatePurchaseEvent listing.id sender listing.seller referrer
                 listing.price affiliate_fee seller_amount)

/-- `deactivate_listing`: seller-only; sets `is_active := false`. -/
def deactivate_listing (listing : Listing) (sender : Nat) : Except MarketAbort Listing :=
  if sender = listing.seller then .ok { listing with is_active := false }
  else .error .eUnauthorized

/-- `reactivate_listing`: seller-only; sets `is_active := true`. -/
def reactivate_listing (listing : Listing) (sender : Nat) : Except MarketAbort Listing :=
  if sender = listing.seller then .ok { listing with is_active := true }
  else .error .eUnauthorized

/-- `update_affiliate_percentage`: seller-only; asserts
`new_percentage <= MAX_AFFILIATE_PERCENTAGE`; stores the new percentage. -/
def update_affiliate_percentage (listing : Listing) (new_percentage sender : Nat) :
    Except MarketAbort Listing :=
  if sender = listing.seller then
    if new_percentage ≤ MAX_AFFILIATE_PERCENTAGE then
      .ok { listing with affiliate_percentage := new_percentage }
    else .error .eInvalidAffiliatePercentage
  else .error .eUnauthorized

/-- View function `calculate_affiliate_fee`:
`price * affiliate_percentage / BASIS_POINTS` in `u64` arithmetic. -/
def calculate_affiliate_fee (listing : Listing) : Except MarketAbort Nat :=
  Except.map (· / BASIS_POINTS) (u64_mul listing.price listing.affiliate_percentage)

/-- Total amount transferred to address `a` by a list of transfers. -/
def paidTo (ts : List Transfer) (a : Nat) : Nat :=
  (ts.map (fun t => if t.recipient = a then t.amount else 0)).sum

/-- The spec's abstract `PurchaseRecord` affiliate-fee view of an emitted
event, for comparison of the source's two event shapes with the spec's
single record: the source's plain `PurchaseEvent` carries no fee field (the
whole payment goes to the seller and nothing to any referrer), which the
spec's record renders as `affiliate_fee = 0`; `AffiliatePurchaseEvent`
carries its `affiliate_fee` field. -/
def eventAffiliateFee : MarketEvent → Nat
  | .purchaseEvent _ _ _ _ => 0
  | .affiliatePurchaseEvent _ _ _ _ _ fee _ => fee

/-- Listings reachable through the module's entry points: created by
`create_listing_with_affiliate` (hence also by `create_listing`), then any
number of seller updates / activation toggles. -/
inductive Reachable : Listing → Prop where
  | created {price : Nat} {blob_id name description : List Nat}
      {affiliate_percentage sender fresh_id : Nat} {l : Listing} :
      create_listing_with_affiliate price blob_id name description
        affiliate_percentage sender fresh_id = .ok l → Reachable l
  | updated {l l' : Listing} {new_percentage sender : Nat} :
      Reachable l → update_affiliate_percentage l new_percentage sender = .ok l' →
      Reachable l'
  | deactivated {l l' : Listing} {sender : Nat} :
      Reachable l → deactivate_listing l sender = .ok l' → Reachable l'
  | reactivated {l l' : Listing} {sender : Nat} :
      Reachable l → reactivate_listing l sender = .ok l' → Reachable l'

end Market

namespace CryptoUtils

/-- `createEncryptedPayload` of `src/lib/crypto-utils.ts`: allocates
`iv.length + ciphertext.length` bytes, writes `iv` at offset 0 and the
ciphertext at offset `iv.length` — i.e. the concatenation `iv ++ ct`. -/
def createEncryptedPayload (encryptedData iv : List Nat) : List Nat :=
  iv ++ encryptedData

/-- `parseEncryptedPayload`: `iv = payload.slice(0, 12)`,
`encryptedData = payload.slice(12)`. -/
def parseEncryptedPayload (payload : List Nat) : List Nat × List Nat :=
  (payload.take 12, payload.drop 12)

/-- The standard base64 alphabet used by the browser's `btoa`
(RFC 4648 §4). -/
def base64Alphabet : List Char :=
  "ABCDEFGHIJKLMNOPQRSTUVWXYZabcdefghijklmnopqrstuvwxyz0123456789+/".toList

/-- Character for a 6-bit group, as `btoa` emits it. -/
def base64CharOfSextet (s : Nat) : Char :=
  base64Alphabet.getD s 'A'

/-- Index of a base64 character in the alphabet, as `atob` reads it. -/
def sextetOfBase64Char (c : Char) : Nat :=
  base64Alphabet.indexOf c

/-- The 6-bit groups of a byte sequence (big-endian within each 24-bit
group, exactly the grouping `btoa` performs before alphabet lookup). -/
def bytesToSextets : List Nat → List Nat
  | b1 :: b2 :: b3 :: rest =>
      let n := b1 * 65536 + b2 * 256 + b3
      n / 262144 :: n / 4096 % 64 :: n / 64 % 64 :: n % 64 :: bytesToSextets rest
  | [b1, b2] =>
      let n := b1 * 1024 + b2 * 4
      [n / 4096, n / 64 % 64, n % 64]
  | [b1] =>
      let n := b1 * 16
      [n / 64, n % 64]
  | [] => []

/-- Bytes of a 6-bit-group sequence (the regrouping `atob` performs after
alphabet lookup; a dangling single sextet carries no whole byte). -/
def sextetsToBytes : List Nat → List Nat
  | s1 :: s2 :: s3 :: s4 :: rest =>
      let n := s1 * 262144 + s2 * 4096 + s3 * 64 + s4
      n / 65536 :: n / 256 % 256 :: n % 256 :: sextetsToBytes rest
  | [s1, s2, s3] =>
      let n := s1 * 4096 + s2 * 64 + s3
      [n / 1024, n / 4 % 256]
  | [s1, s2] =>
      let n := s1 * 64 + s2
      [n / 16]
  | _ => []

/-- `=` padding `btoa` appends, by input length mod 3. -/
def base64Pad (len : Nat) : List Char :=
  match len % 3 with
  | 1 => ['=', '=']
  | 2 => ['=']
  | _ => []

/-- `btoa(String.fromCharCode(...bytes))`: standard base64 with `=`
padding, over a byte sequence. -/
def btoaBytes (bytes : List Nat) : List Char :=
  (bytesToSextets bytes).map base64CharOfSextet ++ base64Pad bytes.length

/-- `Uint8Array.from(atob(s), c => c.charCodeAt(0))` on well-formed base64:
drop padding, look every character up in the alphabet, regroup into
bytes. -/
def atobBytes (chars : List Char) : List Nat :=
  sextetsToBytes ((chars.filter (fun c => c != '=')).map sextetOfBase64Char)

/-- `exportKeyToBase64`: exports the raw key bytes and base64-encodes them
with `btoa`. -/
def exportKeyToBase64 (keyBytes : List Nat) : List Char :=
  btoaBytes keyBytes

/-- `importKeyFromBase64`: decodes with `atob` and re-imports the raw
bytes. -/
def importKeyFromBase64 (base64Key : List Char) : List Nat :=
  atobBytes base64Key

/-- URL-safe characters in the sense of base64's URL- and filename-safe
alphabet (RFC 4648 §5) and RFC 3986's unreserved set: letters, digits,
`-` and `_` (plus `.`/`~` in the unreserved set, irrelevant to base64
output).  `+`, `/` and `=` are not URL-safe: they are exactly the
characters the URL-safe base64 variant replaces or drops. -/
def isUrlSafeChar (c : Char) : Bool :=
  c.isAlpha || c.isDigit || c == '-' || c == '_' || c == '.' || c == '~'

/-- A string is URL-safe when every character is. -/
def isUrlSafeString (s : List Char) : Bool :=
  s.all isUrlSafeChar

end CryptoUtils

namespace GeneratePage

/-- Which market entry point `handlePurchase` submits. -/
inductive PurchaseCall where
  | withReferral (referrer : String)
  | plain
  deriving DecidableEq, Repr

/-- The listing state `fetchListing` assembles in
`src/app/generate/page.tsx` (addresses and ids as strings, as on the
page). -/
structure PageListing where
  id : String
  seller : String
  price : Nat
  blobId : String
  isActive : Bool
  affiliatePercentage : ℚ
  deriving DecidableEq

/-- `fetchListing`'s conversion of the on-chain basis-point field:
`affiliatePercentageField ? parseInt(affiliatePercentageField) / 100 : 0`
(JavaScript exact division of integers up to 1000 by 100). -/
def fetchedAffiliatePercentage (field : Option Nat) : ℚ :=
  match field with
  | some bp => (bp : ℚ) / 100
  | none => 0

/-- The guard of `handlePurchase`:
`referrer && referrer !== currentAccount.address && referrer !== listing.seller && listing.affiliatePercentage > 0`,
with JavaScript string truthiness (`null` and `""` falsy). -/
def hasValidReferrer (referrer : Option String) (buyerAddress : String)
    (listing : PageListing) : Bool :=
  match referrer with
  | none => false
  | some r =>
      r != "" && r != buyerAddress && r != listing.seller &&
        decide ((0 : ℚ) < listing.affiliatePercentage)

/-- `handlePurchase`'s selection: `purchase_with_referral` with the parsed
referrer when the guard holds, plain `purchase` otherwise. -/
def handlePurchaseChoice (referrer : Option String) (buyerAddress : String)
    (listing : PageListing) : PurchaseCall :=
  if hasValidReferrer referrer buyerAddress listing then
    PurchaseCall.withReferral (referrer.getD "")
  else PurchaseCall.plain

end GeneratePage

open Market CryptoUtils GeneratePage

/-! ## Theorems -/

/-- Claim C3: on a listing whose `is_active` is false, `purchase` and
`purchase_with_referral` always fail with the `ListingInactive` state error
(abort `E_LISTING_NOT_ACTIVE`), whatever the payment and referrer, and no
transfer is performed (the result is an error, so the transfer list of a
successful run does not exist). -/
theorem purchase_inactive_always_rejected (listing : Listing)
    (payment_value sender referrer : Nat) (h : listing.is_active = false) :
    purchase listing payment_value sender = .error .eListingNotActive ∧
    purchase_with_referral listing payment_value sender referrer =
      .error .eListingNotActive := by
  constructor <;> simp [purchase, purchase_with_referral, h]

/-- Witness for C3 at a concrete inactive listing. -/
theorem purchase_inactive_always_rejected_witness :
    (Listing.mk 7 3 10 [] [] [] false 500).is_active = false ∧
    (purchase ⟨7, 3, 10, [], [], [], false, 500⟩ 50 1 = .error .eListingNotActive ∧
     purchase_with_referral ⟨7, 3, 10, [], [], [], false, 500⟩ 50 1 2 =
       .error .eListingNotActive) :=
  ⟨rfl, purchase_inactive_always_rejected ⟨7, 3, 10, [], [], [], false, 500⟩ 50 1 2 rfl⟩

/-- Claim C2: for every commission rate above `MAX_AFFILIATE_PERCENTAGE`,
creation aborts with `E_INVALID_AFFILIATE_PERCENTAGE` and a seller-sent
commission update aborts the same way (so no listing is created and no
field changes); consequently every listing reachable through the module's
entry points satisfies `affiliate_percentage ≤ 1000`. -/
theorem invalid_commission_rejected (price : Nat)
    (blob_id name description : List Nat) (bp sender fresh_id : Nat)
    (listing : Listing) (hbp : 1000 < bp) :
    create_listing_with_affiliate price blob_id name description bp sender fresh_id =
      .error .eInvalidAffiliatePercentage ∧
    (sender = listing.seller →
      update_affiliate_percentage listing bp sender =
        .error .eInvalidAffiliatePercentage) ∧
    (∀ l : Listing, Reachable l → l.affiliate_percentage ≤ 1000) := by
  refine ⟨?_, fun hs => ?_, fun l hl => ?_⟩
  · simp [create_listing_with_affiliate, MAX_AFFILIATE_PERCENTAGE]
    omega
  · simp [update_affiliate_percentage, hs, MAX_AFFILIATE_PERCENTAGE]
    omega
  · induction hl with
    | created hc =>
        rw [create_listing_with_affiliate] at hc
        split at hc
        · cases hc
          simpa [MAX_AFFILIATE_PERCENTAGE] using ‹_›
        · cases hc
    | updated _ hu ih =>
        rw [update_affiliate_percentage] at hu
        split at hu
        · split at hu
          · cases hu
            simpa [MAX_AFFILIATE_PERCENTAGE] using ‹_›
          · cases hu
        · cases hu
    | deactivated _ hd ih =>
        rw [deactivate_listing] at hd
        split at hd
        · cases hd; exact ih
        · cases hd
    | reactivated _ hr ih =>
        rw [reactivate_listing] at hr
        split at hr
        · cases hr; exact ih
        · cases hr

/-- Witness for C2 at `affiliate_bp = 1001`. -/
theorem invalid_commission_rejected_witness :
    (1000 : Nat) < 1001 ∧
    (create_listing_with_affiliate 5 [1] [] [] 1001 3 7 =
       .error .eInvalidAffiliatePercentage ∧
     ((3 : Nat) = (Listing.mk 7 3 5 [1] [] [] true 0).seller →
       update_affiliate_percentage ⟨7, 3, 5, [1], [], [], true, 0⟩ 1001 3 =
         .error .eInvalidAffiliatePercentage) ∧
     (∀ l : Listing, Reachable l → l.affiliate_percentage ≤ 1000)) :=
  ⟨by decide,
   invalid_commission_rejected 5 [1] [] [] 1001 3 7 ⟨7, 3, 5, [1], [], [], true, 0⟩
     (by decide)⟩

/-- Claim C10: for seller-sent calls, `deactivate_listing` yields the input
listing with only `is_active` set to false, `reactivate_listing` with only
`is_active` set to true, and `update_affiliate_percentage` (with an
in-range rate) with only `affiliate_percentage` replaced; on an
out-of-range rate the update fails and changes nothing.  The record-update
equalities say all other fields (`id`, `seller`, `price`, `blob_id`,
`name`, `description`) are unchanged. -/
theorem seller_ops_change_one_field (listing : Listing) (sender new_bp : Nat)
    (hs : sender = listing.seller) :
    deactivate_listing listing sender = .ok { listing with is_active := false } ∧
    reactivate_listing listing sender = .ok { listing with is_active := true } ∧
    (new_bp ≤ 1000 →
      update_affiliate_percentage listing new_bp sender =
        .ok { listing with affiliate_percentage := new_bp }) ∧
    (1000 < new_bp →
      update_affiliate_percentage listing new_bp sender =
        .error .eInvalidAffiliatePercentage) := by
  refine ⟨?_, ?_, fun h => ?_, fun h => ?_⟩ <;>
    simp [deactivate_listing, reactivate_listing, update_affiliate_percentage, hs,
      MAX_AFFILIATE_PERCENTAGE] <;> omega

/-- Witness for C10 on a concrete listing with its own seller as sender. -/
theorem seller_ops_change_one_field_witness :
    (3 : Nat) = (Listing.mk 7 3 10 [1] [2] [3] true 500).seller ∧
    (deactivate_listing ⟨7, 3, 10, [1], [2], [3], true, 500⟩ 3 =
       .ok ⟨7, 3, 10, [1], [2], [3], false, 500⟩ ∧
     reactivate_listing ⟨7, 3, 10, [1], [2], [3], true, 500⟩ 3 =
       .ok ⟨7, 3, 10, [1], [2], [3], true, 500⟩ ∧
     ((250 : Nat) ≤ 1000 →
       update_affiliate_percentage ⟨7, 3, 10, [1], [2], [3], true, 500⟩ 250 3 =
         .ok ⟨7, 3, 10, [1], [2], [3], true, 250⟩) ∧
     ((1000 : Nat) < 250 →
       update_affiliate_percentage ⟨7, 3, 10, [1], [2], [3], true, 500⟩ 250 3 =
         .error .eInvalidAffiliatePercentage)) :=
  ⟨rfl, seller_ops_change_one_field ⟨7, 3, 10, [1], [2], [3], true, 500⟩ 3 250 rfl⟩

/-- Claim C6: on an active listing, `purchase` fails with
`InsufficientPayment` exactly when the payment value is below the price;
otherwise it performs a single transfer of the entire submitted payment
(excess included) to the seller and emits the `PurchaseEvent`, whose
spec-level `PurchaseRecord` abstraction carries `affiliate_fee = 0`. -/
theorem purchase_active_spec (listing : Listing) (payment_value sender : Nat)
    (ha : listing.is_active = true) :
    (purchase listing payment_value sender = .error .eInsufficientPayment ↔
      payment_value < listing.price) ∧
    (listing.price ≤ payment_value →
      purchase listing payment_value sender =
        .ok ([⟨listing.seller, payment_value⟩],
             .purchaseEvent listing.id sender listing.seller listing.price) ∧
      eventAffiliateFee
        (.purchaseEvent listing.id sender listing.seller listing.price) = 0) := by
  constructor
  · constructor
    · intro hres
      rw [purchase] at hres
      simp [ha] at hres
      exact hres
    · intro hlt
      simp [purchase, ha, hlt]
  · intro hge
    refine ⟨?_, rfl⟩
    simp [purchase, ha]
    omega

/-- Witness for C6 with an overpaying buyer. -/
theorem purchase_active_spec_witness :
    (Listing.mk 7 3 10 [] [] [] true 0).is_active = true ∧
    ((purchase ⟨7, 3, 10, [], [], [], true, 0⟩ 15 1 = .error .eInsufficientPayment ↔
       (15 : Nat) < 10) ∧
     ((10 : Nat) ≤ 15 →
       purchase ⟨7, 3, 10, [], [], [], true, 0⟩ 15 1 =
         .ok ([⟨3, 15⟩], .purchaseEvent 7 1 3 10) ∧
       eventAffiliateFee (.purchaseEvent 7 1 3 10) = 0)) :=
  ⟨rfl, purchase_active_spec ⟨7, 3, 10, [], [], [], true, 0⟩ 15 1 rfl⟩

/-- Claim C4 counterexample: on an active listing priced 10, with payment
value 5 and the buyer himself as referrer, `purchase_with_referral` aborts
with `E_INSUFFICIENT_PAYMENT` — the payment check runs before the
self-referral check — not with the `SelfReferral` state error the claim
requires. -/
theorem self_referral_error_cex :
    purchase_with_referral ⟨7, 3, 10, [], [], [], true, 500⟩ 5 1 1 =
      .error .eInsufficientPayment ∧
    MarketAbort.eInsufficientPayment ≠ .eCannotSelfRefer := ⟨rfl, by decide⟩

/-- Claim C4 (amended): with `referrer = buyer` or `referrer = seller`,
`purchase_with_referral` always fails and performs no transfer; the abort
is `SelfReferral` exactly when the activation and payment checks pass, and
otherwise the earlier failing check's abort (`ListingInactive`, else
`InsufficientPayment`). -/
theorem self_referral_always_fails (listing : Listing)
    (payment_value sender referrer : Nat)
    (h : referrer = sender ∨ referrer = listing.seller) :
    purchase_with_referral listing payment_value sender referrer =
      .error (if listing.is_active = false then .eListingNotActive
              else if payment_value < listing.price then .eInsufficientPayment
              else .eCannotSelfRefer) := by
  cases hact : listing.is_active with
  | false => simp [purchase_with_referral, hact]
  | true =>
    by_cases hpay : payment_value < listing.price
    · simp [purchase_with_referral, hact, hpay]
    · rcases h with h | h
      · simp [purchase_with_referral, hact, hpay, h]
      · by_cases hrb : referrer = sender
        · simp [purchase_with_referral, hact, hpay, hrb]
        · simp [purchase_with_referral, hact, hpay, hrb, h]

/-- Witness for the amended C4: referrer equal to the seller on an active,
sufficiently paid listing yields the self-referral abort. -/
theorem self_referral_always_fails_witness :
    ((3 : Nat) = 1 ∨ (3 : Nat) = (Listing.mk 7 3 10 [] [] [] true 500).seller) ∧
    purchase_with_referral ⟨7, 3, 10, [], [], [], true, 500⟩ 50 1 3 =
      .error (if (Listing.mk 7 3 10 [] [] [] true 500).is_active = false
              then .eListingNotActive
              else if (50 : Nat) < (Listing.mk 7 3 10 [] [] [] true 500).price
              then .eInsufficientPayment
              else .eCannotSelfRefer) :=
  ⟨Or.inr rfl,
   self_referral_always_fails ⟨7, 3, 10, [], [], [], true, 500⟩ 50 1 3 (Or.inr rfl)⟩

/-- Claim C5 counterexample: creating a listing with price 0 and an empty
locator does not fail with any validation error — it returns the shared
listing, so a listing violating `price > 0` (and with empty `blob_id`)
exists. -/
theorem create_zero_price_accepted_cex :
    create_listing_with_affiliate 0 [] [] [] 0 3 7 =
      .ok ⟨7, 3, 0, [], [], [], true, 0⟩ := rfl

/-- Claim C5 (amended): listing creation validates only the commission
rate.  For every price — including 0 — and every locator — including the
empty byte string — creation succeeds whenever `affiliate_bp ≤ MAX_BP`,
returning the listing with exactly the given fields; the code enforces no
`price > 0` and no non-empty-locator invariant. -/
theorem create_listing_no_price_validation (price : Nat)
    (blob_id name description : List Nat) (bp sender fresh_id : Nat)
    (hbp : bp ≤ 1000) :
    create_listing_with_affiliate price blob_id name description bp sender fresh_id =
      .ok ⟨fresh_id, sender, price, blob_id, name, description, true, bp⟩ := by
  simp [create_listing_with_affiliate, MAX_AFFILIATE_PERCENTAGE, hbp]

/-- Witness for the amended C5 at price 0 with an empty locator. -/
theorem create_listing_no_price_validation_witness :
    (0 : Nat) ≤ 1000 ∧
    create_listing_with_affiliate 0 [] [] [] 0 3 7 =
      .ok ⟨7, 3, 0, [], [], [], true, 0⟩ :=
  ⟨by decide, create_listing_no_price_validation 0 [] [] [] 0 3 7 (by decide)⟩

/-- Claim C1 counterexample: a `u64`-valid instance on which every check
the claim names passes — active listing, price `2^60 > 0`, commission
`1000 ∈ [0, 1000]`, payment `2^60 ≥ price`, referrer distinct from buyer
and seller — yet the call aborts with the Move arithmetic error, because
`price * affiliate_bp = 2^60 * 1000` overflows `u64`: the referrer
receives nothing instead of `floor(price * 1000 / 10000)` and no event is
emitted. -/
theorem referral_split_overflow_cex :
    (Listing.mk 7 3 (2 ^ 60) [] [] [] true 1000).is_active = true ∧
    (0 : Nat) < 2 ^ 60 ∧ (1000 : Nat) ≤ 1000 ∧ (2 ^ 60 : Nat) ≤ 2 ^ 60 ∧
    (2 : Nat) ≠ 1 ∧ (2 : Nat) ≠ 3 ∧
    (0 : Nat) < 2 ^ 60 * 1000 / 10000 ∧
    purchase_with_referral ⟨7, 3, 2 ^ 60, [], [], [], true, 1000⟩ (2 ^ 60) 1 2 =
      .error .eArithmetic :=
  ⟨rfl, by norm_num, by norm_num, le_refl _, by decide, by decide, by norm_num, rfl⟩

/-- Claim C1 (amended): under the additional bound
`price * affiliate_bp < 2^64` (without it the `u64` multiplication aborts
the whole transaction and nothing is transferred), a referral purchase
passing the activation, payment and self-referral checks pays the referrer
exactly `affiliate_fee = floor(price * affiliate_bp / 10000)`, pays the
seller the rest of the submitted payment, and emits an
`AffiliatePurchaseEvent` whose amounts satisfy
`affiliate_fee + seller_amount = price`. -/
theorem purchase_with_referral_split (listing : Listing)
    (payment_value sender referrer : Nat)
    (ha : listing.is_active = true) (hp : 0 < listing.price)
    (hbp : listing.affiliate_percentage ≤ 1000)
    (hpay : listing.price ≤ payment_value)
    (hrb : referrer ≠ sender) (hrs : referrer ≠ listing.seller)
    (hof : listing.price * listing.affiliate_percentage < U64_BOUND) :
    ∃ ts : List Transfer,
      purchase_with_referral listing payment_value sender referrer =
        .ok (ts, .affiliatePurchaseEvent listing.id sender listing.seller referrer
          listing.price (listing.price * listing.affiliate_percentage / 10000)
          (listing.price - listing.price * listing.affiliate_percentage / 10000)) ∧
      paidTo ts referrer = listing.price * listing.affiliate_percentage / 10000 ∧
      paidTo ts listing.seller =
        payment_value - listing.price * listing.affiliate_percentage / 10000 ∧
      listing.price * listing.affiliate_percentage / 10000 +
        (listing.price - listing.price * listing.affiliate_percentage / 10000) =
        listing.price := by
  have hne : ¬ payment_value < listing.price := not_lt.mpr hpay
  have hfee_le : listing.price * listing.affiliate_percentage / 10000 ≤ listing.price := by
    have h1 : listing.price * listing.affiliate_percentage ≤ listing.price * 10000 :=
      Nat.mul_le_mul_left _ (le_trans hbp (by norm_num))
    calc listing.price * listing.affiliate_percentage / 10000
        ≤ listing.price * 10000 / 10000 := Nat.div_le_div_right h1
      _ = listing.price := Nat.mul_div_cancel _ (by norm_num)
  have hsum : listing.price * listing.affiliate_percentage / 10000 +
      (listing.price - listing.price * listing.affiliate_percentage / 10000) =
      listing.price := by omega
  by_cases hbp0 : 0 < listing.affiliate_percentage
  · by_cases hfee0 : 0 < listing.price * listing.affiliate_percentage / 10000
    · refine ⟨[⟨referrer, listing.price * listing.affiliate_percentage / 10000⟩,
        ⟨listing.seller, payment_value - listing.price * listing.affiliate_percentage / 10000⟩],
        ?_, ?_, ?_, hsum⟩
      · simp [purchase_with_referral, ha, hne, hrb, hrs, hbp0, u64_mul, hof,
          BASIS_POINTS, Except.map, u64_sub, hfee_le, hfee0, coin_split,
          le_trans hfee_le hpay]
      · simp [paidTo, Ne.symm hrs]
      · simp [paidTo, hrs]
    · refine ⟨[⟨listing.seller, payment_value⟩], ?_, ?_, ?_, hsum⟩
      · simp [purchase_with_referral, ha, hne, hrb, hrs, hbp0, u64_mul, hof,
          BASIS_POINTS, Except.map, u64_sub, hfee_le, hfee0]
      · simp [paidTo, Ne.symm hrs]
        omega
      · simp [paidTo]
        omega
  · have hbpz : listing.affiliate_percentage = 0 := by omega
    refine ⟨[⟨listing.seller, payment_value⟩], ?_, ?_, ?_, hsum⟩
    · simp [purchase_with_referral, ha, hne, hrb, hrs, hbpz, u64_sub]
    · simp [paidTo, Ne.symm hrs, hbpz]
    · simp [paidTo, hbpz]

/-- Witness for the amended C1 at the spec's Scenario B: price 999,
commission 333 bp, exact payment — fee 33, seller amount 966. -/
theorem purchase_with_referral_split_witness :
    (Listing.mk 7 3 999 [] [] [] true 333).is_active = true ∧
    (0 : Nat) < 999 ∧ (333 : Nat) ≤ 1000 ∧ (999 : Nat) ≤ 999 ∧
    (2 : Nat) ≠ 1 ∧ (2 : Nat) ≠ 3 ∧ (999 * 333 : Nat) < U64_BOUND ∧
    ∃ ts : List Transfer,
      purchase_with_referral ⟨7, 3, 999, [], [], [], true, 333⟩ 999 1 2 =
        .ok (ts, .affiliatePurchaseEvent 7 1 3 2 999 (999 * 333 / 10000)
          (999 - 999 * 333 / 10000)) ∧
      paidTo ts 2 = 999 * 333 / 10000 ∧
      paidTo ts 3 = 999 - 999 * 333 / 10000 ∧
      999 * 333 / 10000 + (999 - 999 * 333 / 10000) = 999 :=
  ⟨rfl, by decide, by decide, by decide, by decide, by decide,
   by simp [U64_BOUND],
   purchase_with_referral_split ⟨7, 3, 999, [], [], [], true, 333⟩ 999 1 2 rfl
     (by decide) (by decide) (by decide) (by decide) (by decide)
     (by simp [U64_BOUND])⟩

/-- Claim C7 counterexample: with an empty (hence not 12-byte) `iv`,
framing then unframing does not return the inputs — the parser slices the
first 12 bytes of whatever it is given, so `([1], [])` comes back instead
of `([], [1])`. -/
theorem frame_roundtrip_cex :
    parseEncryptedPayload (createEncryptedPayload [1] []) ≠ ([], [1]) := by
  decide

/-- Claim C7 (amended): for every ciphertext and every `iv` of exactly 12
bytes — the fixed AES-GCM IV size `encryptFile` always produces —
unframing the framed payload returns the `iv` and the ciphertext
unchanged. -/
theorem frame_unframe_roundtrip (ct iv : List Nat) (h : iv.length = 12) :
    parseEncryptedPayload (createEncryptedPayload ct iv) = (iv, ct) := by
  have h12 : (12 : Nat) ≤ iv.length := le_of_eq h.symm
  simp only [parseEncryptedPayload, createEncryptedPayload, Prod.mk.injEq]
  constructor
  · rw [List.take_append_of_le_length h12, ← h, List.take_length]
  · rw [List.drop_append_of_le_length h12, ← h, List.drop_length, List.nil_append]

/-- Witness for the amended C7 at a concrete 12-byte IV. -/
theorem frame_unframe_roundtrip_witness :
    (List.range 12).length = 12 ∧
    parseEncryptedPayload (createEncryptedPayload [7, 8, 9] (List.range 12)) =
      (List.range 12, [7, 8, 9]) :=
  ⟨by decide, frame_unframe_roundtrip [7, 8, 9] (List.range 12) (by decide)⟩

/-- Every 6-bit group produced by the byte regrouping is below 64 (given
byte inputs). -/
theorem bytesToSextets_lt : ∀ (bs : List Nat), (∀ b ∈ bs, b < 256) →
    ∀ s ∈ bytesToSextets bs, s < 64
  | [], _ => by simp [bytesToSextets]
  | [b1], h => by
      have hb1 : b1 < 256 := h b1 (by simp)
      simp only [bytesToSextets, List.mem_cons, List.not_mem_nil, or_false]
      rintro s (rfl | rfl) <;> omega
  | [b1, b2], h => by
      have hb1 : b1 < 256 := h b1 (by simp)
      have hb2 : b2 < 256 := h b2 (by simp)
      simp only [bytesToSextets, List.mem_cons, List.not_mem_nil, or_false]
      rintro s (rfl | rfl | rfl) <;> omega
  | b1 :: b2 :: b3 :: rest, h => by
      have hb1 : b1 < 256 := h b1 (by simp)
      have hb2 : b2 < 256 := h b2 (by simp)
      have hb3 : b3 < 256 := h b3 (by simp)
      have ih := bytesToSextets_lt rest (fun b hb => h b (by simp [hb]))
      intro s hs
      simp only [bytesToSextets, List.mem_cons] at hs
      rcases hs with rfl | rfl | rfl | rfl | hs
      · omega
      · omega
      · omega
      · omega
      · exact ih s hs

/-- Regrouping 6-bit groups back into bytes undoes the byte-to-sextet
regrouping. -/
theorem sextetsToBytes_bytesToSextets : ∀ (bs : List Nat),
    (∀ b ∈ bs, b < 256) → sextetsToBytes (bytesToSextets bs) = bs
  | [], _ => rfl
  | [b1], h => by
      have hb1 : b1 < 256 := h b1 (by simp)
      simp only [bytesToSextets, sextetsToBytes, List.cons.injEq, and_true]
      omega
  | [b1, b2], h => by
      have hb1 : b1 < 256 := h b1 (by simp)
      have hb2 : b2 < 256 := h b2 (by simp)
      simp only [bytesToSextets, sextetsToBytes, List.cons.injEq, and_true]
      constructor <;> omega
  | b1 :: b2 :: b3 :: rest, h => by
      have hb1 : b1 < 256 := h b1 (by simp)
      have hb2 : b2 < 256 := h b2 (by simp)
      have hb3 : b3 < 256 := h b3 (by simp)
      have ih := sextetsToBytes_bytesToSextets rest (fun b hb => h b (by simp [hb]))
      simp only [bytesToSextets, sextetsToBytes, ih, List.cons.injEq, and_true]
      refine ⟨?_, ?_, ?_⟩ <;> omega

/-- Alphabet lookup inverts alphabet indexing on 6-bit values. -/
theorem sextetOfBase64Char_of_sextet : ∀ s : Fin 64,
    sextetOfBase64Char (base64CharOfSextet s.val) = s.val := by decide

/-- No alphabet character is the padding character. -/
theorem base64CharOfSextet_ne_pad : ∀ s : Fin 64,
    (base64CharOfSextet s.val != '=') = true := by decide

/-- Padding removal keeps all alphabet characters and alphabet lookup then
recovers the 6-bit groups. -/
theorem map_filter_map_sextets (ss : List Nat) (h : ∀ s ∈ ss, s < 64) :
    ((ss.map base64CharOfSextet).filter (fun c => c != '=')).map sextetOfBase64Char
      = ss := by
  induction ss with
  | nil => rfl
  | cons a t ih =>
      have ha : a < 64 := h a (by simp)
      have h1 := base64CharOfSextet_ne_pad ⟨a, ha⟩
      have h2 := sextetOfBase64Char_of_sextet ⟨a, ha⟩
      simp only [List.map_cons, List.filter_cons, h1, if_true, List.map_cons] at *
      simp [h2, ih (fun s hs => h s (by simp [hs]))]

/-- The `=` padding disappears under padding removal. -/
theorem filter_base64Pad (len : Nat) :
    (base64Pad len).filter (fun c => c != '=') = [] := by
  have h3 : len % 3 = 0 ∨ len % 3 = 1 ∨ len % 3 = 2 := by omega
  rcases h3 with h3 | h3 | h3 <;> simp [base64Pad, h3]

/-- `atob` undoes `btoa` on every byte sequence. -/
theorem atobBytes_btoaBytes (bytes : List Nat) (h : ∀ b ∈ bytes, b < 256) :
    atobBytes (btoaBytes bytes) = bytes := by
  unfold atobBytes btoaBytes
  rw [List.filter_append, filter_base64Pad, List.append_nil,
    map_filter_map_sextets _ (bytesToSextets_lt bytes h),
    sextetsToBytes_bytesToSextets bytes h]

/-- Claim C8: the round-trip half holds — importing the exported base64 of
any 256-bit (32-byte) key returns exactly the raw key bytes — but the
URL-safety half fails on the code: `exportKeyToBase64` uses `btoa`, i.e.
the standard base64 alphabet, and for the key of 32 `0xFF` bytes the
output `////…8=` consists of `/` and `=` characters outside the URL-safe
set, contradicting the spec's `must be URL-safe` and the code's own
`URL-safe string` doc comment. -/
theorem export_import_key_roundtrip_not_urlsafe :
    (∀ key : List Nat, key.length = 32 → (∀ b ∈ key, b < 256) →
      importKeyFromBase64 (exportKeyToBase64 key) = key) ∧
    isUrlSafeString (exportKeyToBase64 (List.replicate 32 255)) = false := by
  constructor
  · intro key _ hb
    exact atobBytes_btoaBytes key hb
  · decide

/-- Witness for C8's round-trip half at the all-zero 32-byte key. -/
theorem export_import_key_roundtrip_witness :
    (List.replicate 32 0).length = 32 ∧
    importKeyFromBase64 (exportKeyToBase64 (List.replicate 32 0)) =
      List.replicate 32 0 :=
  ⟨by decide,
   export_import_key_roundtrip_not_urlsafe.1 (List.replicate 32 0) (by decide)
     (by decide)⟩

/-- Claim C9: the redeem flow submits `purchase_with_referral` exactly when
a referrer is present (a non-empty `ref` parameter), differs from the
buyer's address, differs from the listing's seller, and the listing's
commission rate is nonzero; in every other case it submits plain
`purchase`, and the referrer it submits is the parsed one. -/
theorem handlePurchase_referral_selection (referrer : Option String)
    (buyer : String) (listing : PageListing) (bp : Nat)
    (hbp : listing.affiliatePercentage = fetchedAffiliatePercentage (some bp)) :
    (∀ r : String, handlePurchaseChoice referrer buyer listing =
        .withReferral r ↔
      referrer = some r ∧ r ≠ "" ∧ r ≠ buyer ∧ r ≠ listing.seller ∧ 0 < bp) ∧
    (handlePurchaseChoice referrer buyer listing = .plain ↔
      ¬ ∃ r : String,
          referrer = some r ∧ r ≠ "" ∧ r ≠ buyer ∧ r ≠ listing.seller ∧ 0 < bp) := by
  have hpos : ((0 : ℚ) < listing.affiliatePercentage) ↔ 0 < bp := by
    rw [hbp]
    simp only [fetchedAffiliatePercentage]
    rw [div_pos_iff]
    simp [Nat.cast_pos]
  cases referrer with
  | none => simp [handlePurchaseChoice, hasValidReferrer]
  | some r0 =>
      by_cases hcond : hasValidReferrer (some r0) buyer listing = true
      · have hparts := hcond
        simp only [hasValidReferrer, Bool.and_eq_true, bne_iff_ne, ne_eq,
          decide_eq_true_eq] at hparts
        obtain ⟨⟨⟨hr1, hr2⟩, hr3⟩, hr4⟩ := hparts
        constructor
        · intro r
          simp only [handlePurchaseChoice, hcond, if_true, Option.getD_some]
          constructor
          · rintro heq
            cases heq
            exact ⟨rfl, hr1, hr2, hr3, hpos.mp hr4⟩
          · rintro ⟨hsome, -, -, -, -⟩
            cases hsome
            rfl
        · simp only [handlePurchaseChoice, hcond, if_true, Option.getD_some]
          constructor
          · intro heq
            cases heq
          · intro hno
            exact absurd ⟨r0, rfl, hr1, hr2, hr3, hpos.mp hr4⟩ hno
      · have hparts := hcond
        simp only [hasValidReferrer, Bool.and_eq_true, bne_iff_ne, ne_eq,
          decide_eq_true_eq, not_and] at hparts
        constructor
        · intro r
          simp only [handlePurchaseChoice, hcond, if_false]
          constructor
          · intro heq
            cases heq
          · rintro ⟨hsome, h1, h2, h3, h4⟩
            cases hsome
            exact absurd (hpos.mpr h4) (hparts ⟨⟨h1, h2⟩, h3⟩)
        · simp only [handlePurchaseChoice, hcond, if_false]
          constructor
          · rintro - ⟨r, hsome, h1, h2, h3, h4⟩
            cases hsome
            exact absurd (hpos.mpr h4) (hparts ⟨⟨h1, h2⟩, h3⟩)
          · intro _
            rfl

/-- Witness for C9: a present referrer distinct from buyer and seller with
a nonzero commission selects the referral entry point. -/
theorem handlePurchase_referral_selection_witness :
    (PageListing.mk "i" "s" 5 "bl" true ((333 : ℚ) / 100)).affiliatePercentage =
      fetchedAffiliatePercentage (some 333) ∧
    (handlePurchaseChoice (some "r") "b" ⟨"i", "s", 5, "bl", true, (333 : ℚ) / 100⟩ =
        .withReferral "r" ↔
      some "r" = some "r" ∧ "r" ≠ "" ∧ "r" ≠ "b" ∧
        "r" ≠ (PageListing.mk "i" "s" 5 "bl" true ((333 : ℚ) / 100)).seller ∧
        0 < 333) :=
  ⟨rfl,
   (handlePurchase_referral_selection (some "r") "b"
     ⟨"i", "s", 5, "bl", true, (333 : ℚ) / 100⟩ 333 rfl).1 "r"⟩
